import Mathlib

set_option maxHeartbeats 1000000

/-!
Shallow embedding of app.py (Winsert Savings Calculator, Office variant):
the lookup-table reader over the Lists sheet, the Graph call protocol of one
Streamlit script run, the msal token-acquisition routine, the session-scoped
workbook cell protocol, and the Start Over state reset.
-/

/-! ## Lists-sheet grid reader (app.py 188-214) -/

/-- A cell of a Graph range payload: JSON null (`none`) or a text value.
The Lists sheet holds state and city labels, which are strings. -/
abbrev GCell := Option String

/-- Python truthiness of an optional string: None and the empty string are falsy. -/
def pyTruthyStr : Option String → Bool
  | none => false
  | some s => s != ""

/-- Python str.strip(): drop whitespace from both ends, modelled directly on
the character list of the string so that concrete instances evaluate. -/
def pyStrip (s : String) : String :=
  String.mk (((s.data.dropWhile Char.isWhitespace).reverse.dropWhile
    Char.isWhitespace).reverse)

/-- An insertion-ordered Python dict from str to list of str, as an association
list with (by construction) at most one entry per key. -/
abbrev SCDict := List (String × List String)

/-- Python dict assignment d[k] = v: overwrite in place when the key exists,
keeping its position, otherwise append at the end. -/
def dinsert : SCDict → String → List String → SCDict
  | [], k, v => [(k, v)]
  | p :: rest, k, v => if p.1 == k then (k, v) :: rest else p :: dinsert rest k v

/-- Python dict lookup d.get(k): the first (and, for dicts built by dinsert,
only) entry stored under k. -/
def dlookup : SCDict → String → Option (List String)
  | [], _ => none
  | p :: rest, k => if p.1 == k then some p.2 else dlookup rest k

/-- Number of entries stored under key k. -/
def dcount : SCDict → String → Nat
  | [], _ => 0
  | p :: rest, k => (if p.1 == k then 1 else 0) + dcount rest k

/-- One cell of app.py 209: `str(v).strip()` when `v not in (None, "")`,
dropped otherwise. Cells equal to None or to the empty string are dropped
BEFORE stripping, so a whitespace-only cell survives the filter and remains
as the empty string. -/
def cityCell : GCell → Option String
  | none => none
  | some s => if s == "" then none else some (pyStrip s)

/-- app.py 209: `[str(v).strip() for v in col[1:] if v not in (None, "")]`. -/
def cityList (rest : List GCell) : List String :=
  rest.filterMap cityCell

/-- One iteration of the column loop of get_states_and_cities (app.py 201-210):
skip the column when its header cell is falsy or blank after strip, otherwise
append the trimmed header to the states list and assign its city list. -/
def processCol (acc : List String × SCDict) (col : List GCell) : List String × SCDict :=
  match col with
  | [] => acc
  | c0 :: rest =>
    match c0 with
    | none => acc
    | some h =>
      if h == "" then acc
      else
        if (pyStrip h) == "" then acc
        else (acc.1 ++ [(pyStrip h)], dinsert acc.2 (pyStrip h) (cityList rest))

/-- app.py 202: `[row[c] if c < len(row) else None for row in values]`. -/
def colAt (values : List (List GCell)) (c : Nat) : List GCell :=
  values.map (fun row => row.getD c none)

/-- app.py 199: `len(values[0]) if values else 0`. -/
def numCols (values : List (List GCell)) : Nat :=
  (values.headD []).length

/-- get_states_and_cities (app.py 188-214) with the HTTP fetch and the
session-state cache stripped: the states list and the state-to-cities dict
built from the raw Lists!C1:BA100 grid. -/
def get_states_and_cities (values : List (List GCell)) : List String × SCDict :=
  (List.range (numCols values)).foldl
    (fun acc c => processCol acc (colAt values c)) ([], [])

/-! ### Characterization of the reader as an insertion sequence -/

/-- The (trimmed header, city list) entry a single column contributes, if any. -/
def colEntry (col : List GCell) : Option (String × List String) :=
  match col with
  | [] => none
  | c0 :: rest =>
    match c0 with
    | none => none
    | some h =>
      if h == "" then none
      else if (pyStrip h) == "" then none
      else some ((pyStrip h), cityList rest)

/-- The trimmed non-blank header of column c, if any. -/
def colHeader (values : List (List GCell)) (c : Nat) : Option String :=
  (colEntry (colAt values c)).map Prod.fst

/-- The option list column c would contribute: its cells below the header,
filtered of None and "" and then trimmed, in row order. -/
def colOptions (values : List (List GCell)) (c : Nat) : List String :=
  cityList ((colAt values c).drop 1)

/-- The sequence of dict insertions performed by get_states_and_cities,
one per column with a non-blank header, in column order. -/
def entrySeq (values : List (List GCell)) : List (String × List String) :=
  (List.range (numCols values)).filterMap (fun c => colEntry (colAt values c))

/-- Replaying a sequence of Python dict assignments from the empty dict. -/
def buildDict (seq : List (String × List String)) : SCDict :=
  seq.foldl (fun d p => dinsert d p.1 p.2) []

lemma processCol_eq_colEntry (acc : List String × SCDict) (col : List GCell) :
    processCol acc col =
      match colEntry col with
      | none => acc
      | some (k, v) => (acc.1 ++ [k], dinsert acc.2 k v) := by
  match col with
  | [] => rfl
  | none :: _ => rfl
  | some h :: rest =>
    simp only [processCol, colEntry]
    by_cases h1 : h == ""
    · simp [h1]
    · simp only [h1, if_false]
      by_cases h2 : (pyStrip h) == ""
      · simp [h2]
      · simp [h2]

lemma foldl_processCol (cols : List (List GCell)) (acc : List String × SCDict) :
    cols.foldl processCol acc =
      (acc.1 ++ (cols.filterMap colEntry).map Prod.fst,
       (cols.filterMap colEntry).foldl (fun d p => dinsert d p.1 p.2) acc.2) := by
  induction cols generalizing acc with
  | nil => simp
  | cons col rest ih =>
    rw [List.foldl_cons, processCol_eq_colEntry]
    match hce : colEntry col with
    | none => simp [List.filterMap_cons, hce, ih]
    | some kv =>
      rw [ih]
      simp [List.filterMap_cons, hce]

/-- get_states_and_cities is the replay of its per-column insertion sequence. -/
lemma gsc_char (values : List (List GCell)) :
    get_states_and_cities values =
      ((entrySeq values).map Prod.fst, buildDict (entrySeq values)) := by
  have h : (List.range (numCols values)).foldl
      (fun acc c => processCol acc (colAt values c)) ([], []) =
      ((List.range (numCols values)).map (colAt values)).foldl processCol ([], []) := by
    rw [List.foldl_map]
  rw [get_states_and_cities, h, foldl_processCol]
  have h2 : ((List.range (numCols values)).map (colAt values)).filterMap colEntry
      = entrySeq values := by
    rw [List.filterMap_map]
    rfl
  rw [h2]
  simp [buildDict]

/-! ### Dict lemmas -/

lemma dlookup_dinsert (d : SCDict) (k : String) (v : List String) (q : String) :
    dlookup (dinsert d k v) q = if k == q then some v else dlookup d q := by
  induction d with
  | nil =>
    by_cases h : k = q <;> simp [dinsert, dlookup, h]
  | cons p rest ih =>
    simp only [dinsert]
    by_cases hp : p.1 = k
    · by_cases hq : k = q <;> simp [dlookup, hp, hq]
    · have hp' : ¬ (p.1 == k) = true := by simpa using hp
      rw [if_neg hp']
      by_cases hpq : p.1 = q
      · have hkq : ¬ (k == q) = true := by
          simp only [beq_iff_eq]
          exact fun h => hp (hpq.trans h.symm)
        have hpq' : (p.1 == q) = true := by simpa using hpq
        simp [dlookup, hpq', hkq]
      · have hpq' : ¬ (p.1 == q) = true := by simpa using hpq
        simp [dlookup, hpq', ih]

lemma dcount_dinsert_ne (d : SCDict) (k : String) (v : List String) (q : String)
    (hne : ¬ k = q) : dcount (dinsert d k v) q = dcount d q := by
  induction d with
  | nil => simp [dinsert, dcount, hne]
  | cons p rest ih =>
    simp only [dinsert]
    by_cases hp : p.1 = k
    · simp [dcount, hp, hne]
    · have hp' : ¬ (p.1 == k) = true := by simpa using hp
      simp [dcount, hp', ih]

lemma dcount_dinsert_self (d : SCDict) (k : String) (v : List String)
    (h : dcount d k ≤ 1) : dcount (dinsert d k v) k = 1 := by
  induction d with
  | nil => simp [dinsert, dcount]
  | cons p rest ih =>
    simp only [dinsert]
    by_cases hp : p.1 = k
    · have hp' : (p.1 == k) = true := by simpa using hp
      rw [if_pos hp']
      simp only [dcount] at h
      rw [if_pos hp'] at h
      simp only [dcount]
      rw [if_pos (beq_self_eq_true k)]
      omega
    · have hp' : ¬ (p.1 == k) = true := by simpa using hp
      rw [if_neg hp']
      simp only [dcount] at h ⊢
      rw [if_neg hp'] at h ⊢
      simp only [Nat.zero_add] at h ⊢
      exact ih h

lemma dcount_dinsert_le_one (d : SCDict) (k : String) (v : List String)
    (h : ∀ q, dcount d q ≤ 1) : ∀ q, dcount (dinsert d k v) q ≤ 1 := by
  intro q
  by_cases hk : k = q
  · subst hk
    simp [dcount_dinsert_self d k v (h k)]
  · rw [dcount_dinsert_ne d k v q hk]
    exact h q

lemma buildDict_dcount_le_one (seq : List (String × List String)) :
    ∀ q, dcount (buildDict seq) q ≤ 1 := by
  have main : ∀ (s : List (String × List String)) (d : SCDict),
      (∀ q, dcount d q ≤ 1) →
      ∀ q, dcount (s.foldl (fun d p => dinsert d p.1 p.2) d) q ≤ 1 := by
    intro s
    induction s with
    | nil => intro d hd q; simpa using hd q
    | cons p rest ih =>
      intro d hd q
      rw [List.foldl_cons]
      exact ih (dinsert d p.1 p.2) (dcount_dinsert_le_one d p.1 p.2 hd) q
  intro q
  exact main seq [] (by intro q; simp [dcount]) q

lemma dcount_eq_zero_iff (d : SCDict) (k : String) :
    dcount d k = 0 ↔ dlookup d k = none := by
  induction d with
  | nil => simp [dcount, dlookup]
  | cons p rest ih =>
    by_cases h : (p.1 == k) = true
    · simp [dcount, dlookup, h]
    · simp only [dcount, dlookup, if_neg h, Nat.zero_add]
      exact ih

/-- The value the last insertion with key k left, scanning the insertion
sequence from the right. -/
def lastEntry : List (String × List String) → String → Option (List String)
  | [], _ => none
  | p :: rest, k => (lastEntry rest k).or (if p.1 == k then some p.2 else none)

lemma lastEntry_append (s1 s2 : List (String × List String)) (k : String) :
    lastEntry (s1 ++ s2) k = (lastEntry s2 k).or (lastEntry s1 k) := by
  induction s1 with
  | nil => simp [lastEntry]
  | cons p rest ih =>
    rw [List.cons_append]
    simp only [lastEntry]
    rw [ih, Option.or_assoc]

lemma dlookup_buildDict (seq : List (String × List String)) (k : String) :
    dlookup (buildDict seq) k = lastEntry seq k := by
  have main : ∀ (s : List (String × List String)) (d : SCDict),
      dlookup (s.foldl (fun d p => dinsert d p.1 p.2) d) k =
        (lastEntry s k).or (dlookup d k) := by
    intro s
    induction s with
    | nil => intro d; simp [lastEntry]
    | cons p rest ih =>
      intro d
      rw [List.foldl_cons, ih, dlookup_dinsert]
      simp only [lastEntry, Option.or_assoc]
      by_cases hp : p.1 = k
      · simp [hp]
      · have hp' : ¬ (p.1 == k) = true := by simpa using hp
        simp [hp, hp']
  rw [buildDict, main seq []]
  simp [dlookup]

lemma lastEntry_mem (seq : List (String × List String)) (k : String) (v : List String)
    (h : lastEntry seq k = some v) : ∃ p ∈ seq, p.1 = k ∧ p.2 = v := by
  induction seq with
  | nil => simp [lastEntry] at h
  | cons p rest ih =>
    simp only [lastEntry] at h
    match hre : lastEntry rest k with
    | some w =>
      rw [hre] at h
      simp only [Option.or] at h
      obtain ⟨q, hq, hq1, hq2⟩ := ih (hre.trans h)
      exact ⟨q, by simp [hq], hq1, hq2⟩
    | none =>
      rw [hre] at h
      simp only [Option.none_or] at h
      by_cases hp : p.1 = k
      · refine ⟨p, by simp, hp, ?_⟩
        have hp' : (p.1 == k) = true := by simpa using hp
        rw [hp', if_pos rfl] at h
        exact Option.some_inj.mp h
      · have hp' : ¬ (p.1 == k) = true := by simpa using hp
        simp [hp'] at h

/-! ### Column entries and the rightmost-column property -/

lemma colEntry_snd (col : List GCell) (e : String × List String)
    (h : colEntry col = some e) : e.2 = cityList (col.drop 1) := by
  match col with
  | [] => simp [colEntry] at h
  | none :: rest => simp [colEntry] at h
  | some s :: rest =>
    simp only [colEntry] at h
    by_cases h1 : (s == "") = true
    · rw [if_pos h1] at h
      exact absurd h (by simp)
    · rw [if_neg h1] at h
      by_cases h2 : (pyStrip s == "") = true
      · rw [if_pos h2] at h
        exact absurd h (by simp)
      · rw [if_neg h2] at h
        have he := Option.some_inj.mp h
        rw [← he]
        rfl

lemma colEntry_of_header (values : List (List GCell)) (c : Nat) (k : String)
    (h : colHeader values c = some k) :
    colEntry (colAt values c) = some (k, colOptions values c) := by
  unfold colHeader at h
  match hce : colEntry (colAt values c) with
  | none =>
    rw [hce] at h
    simp at h
  | some e =>
    rw [hce] at h
    have h1 : e.1 = k := by simpa using h
    have h2 : e.2 = cityList ((colAt values c).drop 1) := colEntry_snd _ _ hce
    have he : e = (k, colOptions values c) := by
      cases e with
      | mk a b =>
        simp only [Prod.mk.injEq]
        exact ⟨h1, by simpa [colOptions] using h2⟩
    exact congrArg some he

lemma lastEntry_filterMap_range (g : Nat → Option (String × List String)) (label : String)
    (w : List String) (j : Nat) (hj : g j = some (label, w)) :
    ∀ n, j < n → (∀ c, j < c → c < n → ∀ e, g c = some e → ¬ e.1 = label) →
    lastEntry ((List.range n).filterMap g) label = some w := by
  intro n
  induction n with
  | zero => intro h; omega
  | succ m ih =>
    intro hjm hno
    rw [List.range_succ, List.filterMap_append, lastEntry_append]
    by_cases hm : j = m
    · subst hm
      have hfm : List.filterMap g [j] = [(label, w)] := by
        simp [List.filterMap_cons, hj]
      rw [hfm]
      simp [lastEntry, Option.or]
    · have hjm' : j < m := by omega
      have ihm := ih hjm' (fun c hc1 hc2 e he => hno c hc1 (by omega) e he)
      match hgm : g m with
      | none =>
        have hfm : List.filterMap g [m] = [] := by simp [List.filterMap_cons, hgm]
        rw [hfm, ihm]
        simp [lastEntry]
      | some e =>
        have hne : ¬ e.1 = label := hno m hjm' (by omega) e hgm
        have hne' : ¬ (e.1 == label) = true := by simpa using hne
        have hfm : List.filterMap g [m] = [e] := by simp [List.filterMap_cons, hgm]
        rw [hfm, ihm]
        simp [lastEntry, hne', Option.or]

lemma lastEntry_ne_none_of_mem (seq : List (String × List String)) (k : String)
    (p : String × List String) (hp : p ∈ seq) (hk : p.1 = k) :
    ¬ lastEntry seq k = none := by
  induction seq with
  | nil => simp at hp
  | cons q rest ih =>
    simp only [lastEntry]
    rcases List.mem_cons.mp hp with h | h
    · have h1 : (q.1 == k) = true := by
        rw [← h]
        simpa using hk
      match hre : lastEntry rest k with
      | some w => simp [Option.or]
      | none => simp [Option.or, h1]
    · have hne := ih h
      match hre : lastEntry rest k with
      | some w => simp [Option.or]
      | none => exact absurd hre hne

lemma count_fst_filterMap (l : List Nat) (g : Nat → Option (String × List String))
    (label : String) :
    ((l.filterMap g).map Prod.fst).count label
      = (l.filter (fun c => (g c).map Prod.fst == some label)).length := by
  induction l with
  | nil => simp
  | cons c rest ih =>
    rw [List.filterMap_cons, List.filter_cons]
    match hc : g c with
    | none => simp [hc, ih]
    | some e =>
      by_cases he : e.1 = label
      · simp [hc, he, ih, List.count_cons]
      · have he' : ¬ (e.1 == label) = true := by simpa using he
        simp [hc, he', ih, List.count_cons]

/-! ## Theorems about the Lists-sheet reader -/

/-- C6: on the synthetic grid with header row Alpha, Beta and rows
x p / y blank / blank q, the reader returns states Alpha, Beta and the index
Alpha maps to x, y and Beta maps to p, q: blank interior cells are skipped
entirely, not preserved as empty strings. -/
theorem c6_lookup_table_roundtrip :
    get_states_and_cities
      [[some "Alpha", some "Beta"], [some "x", some "p"],
       [some "y", some ""], [some "", some "q"]]
      = (["Alpha", "Beta"], [("Alpha", ["x", "y"]), ("Beta", ["p", "q"])]) := by
  rfl

/-- C7: when two columns i < j carry the same non-blank trimmed header label
and j is the rightmost such column, the options index holds exactly one entry
for that label and its list is column j's option list: last column wins. -/
theorem c7_duplicate_labels_last_column_wins (values : List (List GCell))
    (label : String) (i j : Nat) (hij : i < j) (hj : j < numCols values)
    (hi : colHeader values i = some label) (hjl : colHeader values j = some label)
    (hlast : ∀ c, j < c → c < numCols values → ¬ colHeader values c = some label) :
    dcount (get_states_and_cities values).2 label = 1 ∧
    dlookup (get_states_and_cities values).2 label = some (colOptions values j) := by
  have hgj : colEntry (colAt values j) = some (label, colOptions values j) :=
    colEntry_of_header values j label hjl
  have hdict : (get_states_and_cities values).2 = buildDict (entrySeq values) := by
    rw [gsc_char]
  have hlook : dlookup (get_states_and_cities values).2 label
      = some (colOptions values j) := by
    rw [hdict, dlookup_buildDict]
    apply lastEntry_filterMap_range (fun c => colEntry (colAt values c)) label
      (colOptions values j) j hgj (numCols values) hj
    intro c hc1 hc2 e he hke
    apply hlast c hc1 hc2
    simp [colHeader, he, hke]
  refine ⟨?_, hlook⟩
  have hle := buildDict_dcount_le_one (entrySeq values) label
  rw [← hdict] at hle
  have hz : ¬ dcount (get_states_and_cities values).2 label = 0 := by
    intro h0
    rw [dcount_eq_zero_iff] at h0
    rw [h0] at hlook
    exact absurd hlook (by simp)
  omega

theorem c7_duplicate_labels_last_column_wins_witness :
    dcount (get_states_and_cities
      [[some "Texas", some "Texas"], [some "a", some "b"]]).2 "Texas" = 1 ∧
    dlookup (get_states_and_cities
      [[some "Texas", some "Texas"], [some "a", some "b"]]).2 "Texas" = some ["b"] :=
  c7_duplicate_labels_last_column_wins
    [[some "Texas", some "Texas"], [some "a", some "b"]] "Texas" 0 1
    (by omega) (by decide) (by rfl) (by rfl)
    (by
      intro c h1 h2
      have h4 : numCols [[some "Texas", some "Texas"], [some "a", some "b"]] = 2 := rfl
      rw [h4] at h2
      omega)

/-- C9 counterexample: on the grid with header Alpha and one whitespace-only
cell below it, the returned option list for Alpha is the singleton empty
string, so the options are NOT all non-empty as the claim states. -/
theorem c9_counterexample_whitespace_option :
    dlookup (get_states_and_cities [[some "Alpha"], [some " "]]).2 "Alpha" = some [""] ∧
    ¬ (∀ (values : List (List GCell)) (label : String) (opts : List String),
        dlookup (get_states_and_cities values).2 label = some opts →
        ∀ o ∈ opts, ¬ o = "") := by
  constructor
  · rfl
  · intro hall
    exact hall [[some "Alpha"], [some " "]] "Alpha" [""] (by rfl) "" (by simp) rfl

/-- C9 amended: every option list in the returned index is the option list of
one of the columns with that header (the rightmost one): its entries are the
str-trimmed cell contents of that column in row order, where cells equal to
None or the empty string are discarded; a whitespace-only cell however is kept
and becomes an empty-string option, so non-emptiness does not hold. -/
theorem c9_amended_options_trimmed_row_order (values : List (List GCell))
    (label : String) (opts : List String)
    (h : dlookup (get_states_and_cities values).2 label = some opts) :
    (∀ o ∈ opts, ∃ s : String, o = pyStrip s) ∧
    ∃ c, c < numCols values ∧ colHeader values c = some label ∧
      opts = colOptions values c := by
  have hdict : (get_states_and_cities values).2 = buildDict (entrySeq values) := by
    rw [gsc_char]
  rw [hdict, dlookup_buildDict] at h
  obtain ⟨p, hmem, hk, hv⟩ := lastEntry_mem _ _ _ h
  obtain ⟨c, hcr, hgc⟩ := List.mem_filterMap.mp hmem
  have hcn : c < numCols values := List.mem_range.mp hcr
  have hsnd : p.2 = cityList ((colAt values c).drop 1) := colEntry_snd _ _ hgc
  have hopts : opts = colOptions values c := by
    rw [← hv, hsnd]
    rfl
  constructor
  · intro o ho
    rw [hopts] at ho
    obtain ⟨v, hvmem, hvo⟩ := List.mem_filterMap.mp ho
    match v with
    | none => simp [cityCell] at hvo
    | some s =>
      simp only [cityCell] at hvo
      by_cases hs : (s == "") = true
      · rw [if_pos hs] at hvo
        exact absurd hvo (by simp)
      · rw [if_neg hs] at hvo
        exact ⟨s, (Option.some_inj.mp hvo).symm⟩
  · exact ⟨c, hcn, by simp [colHeader, hgc, hk], hopts⟩

theorem c9_amended_options_trimmed_row_order_witness :
    (∀ o ∈ [""], ∃ s : String, o = pyStrip s) ∧
    ∃ c, c < numCols [[some "Alpha"], [some " "]] ∧
      colHeader [[some "Alpha"], [some " "]] c = some "Alpha" ∧
      ([""] : List String) = colOptions [[some "Alpha"], [some " "]] c :=
  c9_amended_options_trimmed_row_order [[some "Alpha"], [some " "]] "Alpha" [""] (by rfl)

/-- C10: when two columns i < j carry the same non-blank header label, the
states list offered in the step-1 selector keeps one occurrence per such
column (its count equals the number of columns with that header, hence at
least 2) even though the dict keeps exactly one entry for the label. -/
theorem c10_states_list_keeps_duplicates (values : List (List GCell))
    (label : String) (i j : Nat) (hij : i < j) (hj : j < numCols values)
    (hi : colHeader values i = some label) (hjl : colHeader values j = some label) :
    (get_states_and_cities values).1.count label
      = ((List.range (numCols values)).filter
          (fun c => colHeader values c == some label)).length ∧
    2 ≤ (get_states_and_cities values).1.count label ∧
    dcount (get_states_and_cities values).2 label = 1 := by
  have hstates : (get_states_and_cities values).1 = (entrySeq values).map Prod.fst := by
    rw [gsc_char]
  have hcount : (get_states_and_cities values).1.count label
      = ((List.range (numCols values)).filter
          (fun c => colHeader values c == some label)).length := by
    rw [hstates, entrySeq, count_fst_filterMap]
    rfl
  refine ⟨hcount, ?_, ?_⟩
  · rw [hcount]
    have hmi : i ∈ (List.range (numCols values)).filter
        (fun c => colHeader values c == some label) :=
      List.mem_filter.mpr ⟨List.mem_range.mpr (lt_trans hij hj), by simp [hi]⟩
    have hmj : j ∈ (List.range (numCols values)).filter
        (fun c => colHeader values c == some label) :=
      List.mem_filter.mpr ⟨List.mem_range.mpr hj, by simp [hjl]⟩
    have hsub : ({i, j} : Finset ℕ) ⊆ ((List.range (numCols values)).filter
        (fun c => colHeader values c == some label)).toFinset := by
      intro x hx
      rcases Finset.mem_insert.mp hx with h | h
      · subst h
        exact List.mem_toFinset.mpr hmi
      · rw [Finset.mem_singleton] at h
        subst h
        exact List.mem_toFinset.mpr hmj
    have hcard : ({i, j} : Finset ℕ).card = 2 := Finset.card_pair (by omega)
    calc 2 = ({i, j} : Finset ℕ).card := hcard.symm
      _ ≤ ((List.range (numCols values)).filter
            (fun c => colHeader values c == some label)).toFinset.card :=
          Finset.card_le_card hsub
      _ ≤ ((List.range (numCols values)).filter
            (fun c => colHeader values c == some label)).length :=
          List.toFinset_card_le _
  · have hdict : (get_states_and_cities values).2 = buildDict (entrySeq values) := by
      rw [gsc_char]
    have hgj : colEntry (colAt values j) = some (label, colOptions values j) :=
      colEntry_of_header values j label hjl
    have hmem : (label, colOptions values j) ∈ entrySeq values :=
      List.mem_filterMap.mpr ⟨j, List.mem_range.mpr hj, hgj⟩
    have hne := lastEntry_ne_none_of_mem (entrySeq values) label _ hmem rfl
    have hle := buildDict_dcount_le_one (entrySeq values) label
    have hz : ¬ dcount (buildDict (entrySeq values)) label = 0 := by
      intro h0
      rw [dcount_eq_zero_iff, dlookup_buildDict] at h0
      exact hne h0
    rw [hdict]
    omega

theorem c10_states_list_keeps_duplicates_witness :
    (get_states_and_cities
      [[some "Texas", some "Texas"], [some "a", some "b"]]).1.count "Texas"
      = ((List.range (numCols [[some "Texas", some "Texas"], [some "a", some "b"]])).filter
          (fun c => colHeader [[some "Texas", some "Texas"], [some "a", some "b"]] c
            == some "Texas")).length ∧
    2 ≤ (get_states_and_cities
      [[some "Texas", some "Texas"], [some "a", some "b"]]).1.count "Texas" ∧
    dcount (get_states_and_cities
      [[some "Texas", some "Texas"], [some "a", some "b"]]).2 "Texas" = 1 :=
  c10_states_list_keeps_duplicates
    [[some "Texas", some "Texas"], [some "a", some "b"]] "Texas" 0 1
    (by omega) (by decide) (by rfl) (by rfl)

/-! ## Graph call protocol of one Streamlit script run (app.py 129-183, 403-613) -/

/-- The remote Graph workbook calls app.py can issue, in issue order. -/
inductive GCall where
  | resolveItem
  | createSession
  | closeSession
  | patchRange (sheet : String) (addr : String)
  | getRange (sheet : String) (addr : String)
  | calcFull
deriving DecidableEq

/-- The st.session_state slice that steers which Graph calls a run issues:
the cached drive item, the cached workbook session id, the cached Lists data,
the deferred city, and the wizard step. -/
structure St where
  driveItem : Bool
  sessionId : Bool
  listsCached : Bool
  pendingCity : Option String
  step : Nat
deriving DecidableEq

/-- _item_base (app.py 129-135): resolve the workbook path once, then cache. -/
def itemBase (s : St) : St × List GCall :=
  if s.driveItem then (s, [])
  else ({ s with driveItem := true }, [GCall.resolveItem])

/-- create_session (app.py 137-147): reuse the cached session id, else POST
createSession and cache the returned id. -/
def create_sessionM (s : St) : St × List GCall :=
  if s.sessionId then (s, [])
  else
    let r := itemBase s
    ({ r.1 with sessionId := true }, r.2 ++ [GCall.createSession])

/-- close_session (app.py 149-157): pop the cached session id; when one was
present, POST closeSession (failures swallowed). -/
def close_sessionM (s : St) : St × List GCall :=
  if s.sessionId then
    let r := itemBase { s with sessionId := false }
    (r.1, r.2 ++ [GCall.closeSession])
  else (s, [])

/-- set_cell (app.py 159-166): PATCH the Office-sheet range at addr. -/
def set_cellM (s : St) (addr : String) : St × List GCall :=
  let r := itemBase s
  (r.1, r.2 ++ [GCall.patchRange "Office" addr])

/-- get_cell (app.py 168-175): GET the Office-sheet range at addr. The value
read back does not steer any control flow modelled here. -/
def get_cellM (s : St) (addr : String) : St × List GCall :=
  let r := itemBase s
  (r.1, r.2 ++ [GCall.getRange "Office" addr])

/-- calculate (app.py 177-183): POST a full recalculation. -/
def calculateM (s : St) : St × List GCall :=
  let r := itemBase s
  (r.1, r.2 ++ [GCall.calcFull])

/-- get_states_and_cities (app.py 188-197): on a cache miss, GET the
Lists!C1:BA100 range, then cache. -/
def get_states_and_citiesM (s : St) : St × List GCall :=
  if s.listsCached then (s, [])
  else
    let r := itemBase s
    ({ r.1 with listsCached := true }, r.2 ++ [GCall.getRange "Lists" "C1:BA100"])

/-- The step-3 form fields as read from st.session_state (app.py 293-300). -/
structure Fields where
  bldg_area : Option ℚ
  floors : Option ℚ
  hvac : Option String
  existw : Option String
  fuel : Option String
  cool : Option String
  hours : Option ℚ
  csw_sf : Option ℚ
deriving DecidableEq

/-- `isinstance(x, (int, float)) and x > 0`. -/
def posNum : Option ℚ → Bool
  | some x => decide (0 < x)
  | none => false

/-- `isinstance(x, (int, float)) and x >= 0`. -/
def nonnegNum : Option ℚ → Bool
  | some x => decide (0 ≤ x)
  | none => false

/-- The readiness check of save_building_inputs (app.py 302-308): area, hours
and CSW area must be positive numbers, floors a number at least 0, and the
four select fields truthy. -/
def buildingReady (f : Fields) : Bool :=
  posNum f.bldg_area && nonnegNum f.floors && pyTruthyStr f.hvac &&
    pyTruthyStr f.existw && pyTruthyStr f.fuel && pyTruthyStr f.cool &&
    posNum f.hours && posNum f.csw_sf

/-- save_building_inputs (app.py 292-329): when ready, PATCH the eight input
cells in source order, optionally calculate and read WWR from F28; when not
ready, return failure before any cell write. -/
def save_building_inputsM (s : St) (f : Fields) (calcForWwr : Bool) :
    St × List GCall × Bool :=
  if buildingReady f then
    let r1 := set_cellM s "F18"
    let r2 := set_cellM r1.1 "F19"
    let r3 := set_cellM r2.1 "F20"
    let r4 := set_cellM r3.1 "F24"
    let r5 := set_cellM r4.1 "F21"
    let r6 := set_cellM r5.1 "F22"
    let r7 := set_cellM r6.1 "F23"
    let r8 := set_cellM r7.1 "F27"
    let t := r1.2 ++ r2.2 ++ r3.2 ++ r4.2 ++ r5.2 ++ r6.2 ++ r7.2 ++ r8.2
    if calcForWwr then
      let rc := calculateM r8.1
      let rw := get_cellM rc.1 "F28"
      (rw.1, t ++ rc.2 ++ rw.2, true)
    else (r8.1, t, true)
  else (s, [], false)

/-- The step-4 form fields as read from st.session_state (app.py 340-342). -/
structure Rates where
  cswtyp : Option String
  elec_rate : Option ℚ
  gas_rate : Option ℚ
deriving DecidableEq

/-- The readiness check of save_rates (app.py 343-347). -/
def ratesReady (r : Rates) : Bool :=
  pyTruthyStr r.cswtyp && nonnegNum r.elec_rate && nonnegNum r.gas_rate

/-- ensure_city_committed (app.py 332-336): when a truthy deferred city is
pending, write it to C19 and delete the pending key. -/
def ensure_city_committedM (s : St) : St × List GCall :=
  match s.pendingCity with
  | some c =>
    if c == "" then (s, [])
    else
      let r := set_cellM s "C19"
      ({ r.1 with pendingCity := none }, r.2)
  | none => (s, [])

/-- save_rates (app.py 339-355): when ready, commit any pending city, then
PATCH F26, C27, C28; when not ready, return failure before any write. -/
def save_ratesM (s : St) (r : Rates) : St × List GCall × Bool :=
  if ratesReady r then
    let r1 := ensure_city_committedM s
    let r2 := set_cellM r1.1 "F26"
    let r3 := set_cellM r2.1 "C27"
    let r4 := set_cellM r3.1 "C28"
    (r4.1, r1.2 ++ r2.2 ++ r3.2 ++ r4.2, true)
  else (s, [], false)

/-- write_city_to_workbook + check_climate (app.py 280-289): write the city to
C19, calculate, read HDD (C23) and CDD (C24). -/
def check_climateM (s : St) : St × List GCall :=
  let r1 := set_cellM s "C19"
  let r2 := calculateM r1.1
  let r3 := get_cellM r2.1 "C23"
  let r4 := get_cellM r3.1 "C24"
  (r4.1, r1.2 ++ r2.2 ++ r3.2 ++ r4.2)

/-- The cells read_results fetches, in the evaluation order of the dict
literal (app.py 357-366). -/
def resultAddrs : List String := ["E14", "F31", "F33", "C35", "C36", "F36", "F28"]

/-- The cells of read_input_summary_from_workbook, in loop order
(app.py 369-398). -/
def summaryAddrs : List String :=
  ["C18", "C19", "F18", "F19", "F20", "F24", "F21", "F22", "F23", "F28",
   "F27", "F26", "C27", "C28"]

/-- A sequence of get_cell calls over a list of addresses. -/
def get_cellsM (s : St) : List String → St × List GCall
  | [] => (s, [])
  | a :: rest =>
    let r1 := get_cellM s a
    let r2 := get_cellsM r1.1 rest
    (r2.1, r1.2 ++ r2.2)

/-- The step-5 body before its buttons (app.py 569-594): one calculate, the
results reads, and the input-summary reads. -/
def step5ReadsM (s : St) : St × List GCall :=
  let r1 := calculateM s
  let r2 := get_cellsM r1.1 resultAddrs
  let r3 := get_cellsM r2.1 summaryAddrs
  (r3.1, r1.2 ++ r2.2 ++ r3.2)

/-- The user interaction (button press) a single script run reacts to. -/
inductive UEvent where
  | noEvent
  | s1Next
  | s2Back
  | s2Check
  | s2Next
  | s3Back
  | s3Check
  | s3Next
  | s4Back
  | s4Next
  | s5Back
  | s5StartOver
deriving DecidableEq

/-- Everything a single script run depends on: the cache flags and wizard
position held in st.session_state, the button pressed, and the widget values. -/
structure RunInput where
  hasDriveItem : Bool
  hasSessionId : Bool
  listsCached : Bool
  step : Nat
  event : UEvent
  stateSel : Option String
  selectedState : Option String
  citySel : Option String
  pendingCity : Option String
  fields : Fields
  rates : Rates
deriving DecidableEq

/-- apply_state (app.py 272-277): write the state to C18 when truthy. -/
def apply_stateM (s : St) (state : Option String) : St × List GCall × Bool :=
  if pyTruthyStr state then
    let r := set_cellM s "C18"
    (r.1, r.2, true)
  else (s, [], false)

/-- The step dispatch of app.py 422-610: which Graph calls each step branch
issues for the given event, and the step it leaves in st.session_state.
Branches that only render widgets or warnings issue no calls. -/
def stepBody (s : St) (i : RunInput) : St × List GCall :=
  if i.step = 1 then
    if i.event = UEvent.s1Next then
      let r := apply_stateM s i.stateSel
      if r.2.2 then ({ r.1 with step := 2 }, r.2.1) else (r.1, r.2.1)
    else (s, [])
  else if i.step = 2 then
    if i.event = UEvent.s2Back then ({ s with step := 1 }, [])
    else if i.event = UEvent.s2Check then
      if pyTruthyStr i.selectedState && pyTruthyStr i.citySel then check_climateM s
      else (s, [])
    else if i.event = UEvent.s2Next then
      if pyTruthyStr i.selectedState && pyTruthyStr i.citySel then
        ({ s with step := 3, pendingCity := i.citySel }, [])
      else (s, [])
    else (s, [])
  else if i.step = 3 then
    if i.event = UEvent.s3Back then ({ s with step := 2 }, [])
    else if i.event = UEvent.s3Check then
      let r := save_building_inputsM s i.fields true
      (r.1, r.2.1)
    else if i.event = UEvent.s3Next then
      let r := save_building_inputsM s i.fields false
      if r.2.2 then ({ r.1 with step := 4 }, r.2.1) else (r.1, r.2.1)
    else (s, [])
  else if i.step = 4 then
    if i.event = UEvent.s4Back then ({ s with step := 3 }, [])
    else if i.event = UEvent.s4Next then
      let r := save_ratesM s i.rates
      if r.2.2 then ({ r.1 with step := 5 }, r.2.1) else (r.1, r.2.1)
    else (s, [])
  else if i.step = 5 then
    let r := step5ReadsM s
    if i.event = UEvent.s5Back then ({ r.1 with step := 4 }, r.2)
    else if i.event = UEvent.s5StartOver then
      let rc := close_sessionM r.1
      ({ rc.1 with step := 1 }, r.2 ++ rc.2)
    else (r.1, r.2)
  else (s, [])

/-- One Streamlit script run of app.py (lines 403-613), as the Graph calls it
issues in order and the session state it leaves. Token acquisition is modelled
separately; runs reaching create_session are those where it succeeded. A run
that raises at its (k+1)-th Graph call issues exactly the first k calls plus
the failing one, i.e. an initial segment of this trace, and then ends: the module-level
finally block (line 613) is `pass` and issues nothing. -/
def runScript (i : RunInput) : St × List GCall :=
  let s0 : St := { driveItem := i.hasDriveItem, sessionId := i.hasSessionId,
                   listsCached := i.listsCached, pendingCity := i.pendingCity,
                   step := i.step }
  let r1 := create_sessionM s0
  let r2 := get_states_and_citiesM r1.1
  let r3 := stepBody r2.1 i
  (r3.1, r1.2 ++ r2.2 ++ r3.2)

/-! ### Counting close and write calls in a trace -/

/-- Number of closeSession calls in a trace. -/
def closeCount : List GCall → Nat
  | [] => 0
  | GCall.closeSession :: t => closeCount t + 1
  | _ :: t => closeCount t

/-- Number of cell writes (PATCH range calls) in a trace. -/
def patchCount : List GCall → Nat
  | [] => 0
  | GCall.patchRange _ _ :: t => patchCount t + 1
  | _ :: t => patchCount t

lemma closeCount_append (a b : List GCall) :
    closeCount (a ++ b) = closeCount a + closeCount b := by
  induction a with
  | nil => simp [closeCount]
  | cons c t ih => cases c <;> simp [closeCount, ih] <;> omega

lemma patchCount_append (a b : List GCall) :
    patchCount (a ++ b) = patchCount a + patchCount b := by
  induction a with
  | nil => simp [patchCount]
  | cons c t ih => cases c <;> simp [patchCount, ih] <;> omega

lemma closeCount_take_le (t : List GCall) (k : Nat) :
    closeCount (t.take k) ≤ closeCount t := by
  induction t generalizing k with
  | nil => simp [closeCount]
  | cons c rest ih =>
    cases k with
    | zero => simp [closeCount]
    | succ m =>
      rw [List.take_succ_cons]
      cases c <;> simp only [closeCount] <;> (have hm := ih m; omega)

lemma closeCount_itemBase (s : St) : closeCount (itemBase s).2 = 0 := by
  simp only [itemBase]
  split <;> rfl

lemma patchCount_itemBase (s : St) : patchCount (itemBase s).2 = 0 := by
  simp only [itemBase]
  split <;> rfl

lemma closeCount_create_sessionM (s : St) : closeCount (create_sessionM s).2 = 0 := by
  simp only [create_sessionM]
  split
  · rfl
  · simp [closeCount_append, closeCount_itemBase, closeCount]

lemma patchCount_create_sessionM (s : St) : patchCount (create_sessionM s).2 = 0 := by
  simp only [create_sessionM]
  split
  · rfl
  · simp [patchCount_append, patchCount_itemBase, patchCount]

lemma closeCount_get_states_and_citiesM (s : St) :
    closeCount (get_states_and_citiesM s).2 = 0 := by
  simp only [get_states_and_citiesM]
  split
  · rfl
  · simp [closeCount_append, closeCount_itemBase, closeCount]

lemma patchCount_get_states_and_citiesM (s : St) :
    patchCount (get_states_and_citiesM s).2 = 0 := by
  simp only [get_states_and_citiesM]
  split
  · rfl
  · simp [patchCount_append, patchCount_itemBase, patchCount]

lemma closeCount_set_cellM (s : St) (a : String) : closeCount (set_cellM s a).2 = 0 := by
  simp [set_cellM, closeCount_append, closeCount_itemBase, closeCount]

lemma closeCount_get_cellM (s : St) (a : String) : closeCount (get_cellM s a).2 = 0 := by
  simp [get_cellM, closeCount_append, closeCount_itemBase, closeCount]

lemma closeCount_calculateM (s : St) : closeCount (calculateM s).2 = 0 := by
  simp [calculateM, closeCount_append, closeCount_itemBase, closeCount]

lemma closeCount_close_sessionM (s : St) : closeCount (close_sessionM s).2 ≤ 1 := by
  simp only [close_sessionM]
  split
  · simp [closeCount_append, closeCount_itemBase, closeCount]
  · simp [closeCount]

lemma closeCount_apply_stateM (s : St) (st : Option String) :
    closeCount (apply_stateM s st).2.1 = 0 := by
  simp only [apply_stateM]
  split
  · simp [closeCount_set_cellM]
  · rfl

lemma closeCount_check_climateM (s : St) : closeCount (check_climateM s).2 = 0 := by
  simp [check_climateM, closeCount_append, closeCount_set_cellM,
    closeCount_calculateM, closeCount_get_cellM]

lemma closeCount_save_building_inputsM (s : St) (f : Fields) (b : Bool) :
    closeCount (save_building_inputsM s f b).2.1 = 0 := by
  simp only [save_building_inputsM]
  split
  · split <;>
      simp [closeCount_append, closeCount_set_cellM, closeCount_calculateM,
        closeCount_get_cellM, closeCount]
  · rfl

lemma closeCount_ensure_city_committedM (s : St) :
    closeCount (ensure_city_committedM s).2 = 0 := by
  cases hsp : s.pendingCity with
  | none => simp [ensure_city_committedM, hsp, closeCount]
  | some c =>
    simp only [ensure_city_committedM, hsp]
    split
    · rfl
    · simp [closeCount_set_cellM]

lemma closeCount_save_ratesM (s : St) (r : Rates) :
    closeCount (save_ratesM s r).2.1 = 0 := by
  simp only [save_ratesM]
  split
  · simp [closeCount_append, closeCount_ensure_city_committedM, closeCount_set_cellM]
  · rfl

lemma closeCount_get_cellsM (s : St) (addrs : List String) :
    closeCount (get_cellsM s addrs).2 = 0 := by
  induction addrs generalizing s with
  | nil => rfl
  | cons a rest ih =>
    simp [get_cellsM, closeCount_append, closeCount_get_cellM, ih]

lemma closeCount_step5ReadsM (s : St) : closeCount (step5ReadsM s).2 = 0 := by
  simp [step5ReadsM, closeCount_append, closeCount_calculateM, closeCount_get_cellsM]

lemma closeCount_stepBody_le (s : St) (i : RunInput) :
    closeCount (stepBody s i).2 ≤ if i.event = UEvent.s5StartOver then 1 else 0 := by
  have hcc := closeCount_close_sessionM (step5ReadsM s).1
  have h5r := closeCount_step5ReadsM s
  simp only [stepBody]
  split_ifs <;>
    simp_all [closeCount_append, closeCount, closeCount_apply_stateM,
      closeCount_check_climateM, closeCount_save_building_inputsM,
      closeCount_save_ratesM, closeCount_step5ReadsM]

/-! ### Step preservation through the entry calls -/

lemma step_itemBase (s : St) : (itemBase s).1.step = s.step := by
  simp only [itemBase]
  split <;> rfl

lemma step_create_sessionM (s : St) : (create_sessionM s).1.step = s.step := by
  simp only [create_sessionM]
  split
  · rfl
  · simp [step_itemBase]

lemma step_get_states_and_citiesM (s : St) :
    (get_states_and_citiesM s).1.step = s.step := by
  simp only [get_states_and_citiesM]
  split
  · rfl
  · simp [step_itemBase]

/-- A step-3 Next with a failing readiness check does nothing: no calls, no
state change (app.py 530-535 with save_building_inputs returning False). -/
lemma stepBody_s3Next_not_ready (s : St) (i : RunInput) (h3 : i.step = 3)
    (hev : i.event = UEvent.s3Next) (hnr : buildingReady i.fields = false) :
    stepBody s i = (s, []) := by
  simp [stepBody, h3, hev, save_building_inputsM, hnr]

/-! ## Concrete runs -/

/-- A complete, valid set of step-3 building fields. -/
def fieldsOk : Fields :=
  { bldg_area := some 1000, floors := some 2, hvac := some "Other",
    existw := some "Single pane", fuel := some "Electric", cool := some "Yes",
    hours := some 2000, csw_sf := some 500 }

/-- A fresh run (no cached item, session or lists) on step 3 where the user
presses Next with valid fields. -/
def runStep3Next : RunInput :=
  { hasDriveItem := false, hasSessionId := false, listsCached := false,
    step := 3, event := UEvent.s3Next, stateSel := none,
    selectedState := some "Georgia", citySel := none,
    pendingCity := some "Atlanta", fields := fieldsOk,
    rates := { cswtyp := none, elec_rate := none, gas_rate := none } }

/-! ## Session close accounting (C2) -/

/-- C2 counterexample: a run that opens a workbook session and then raises a
CellAccessError at its seventh Graph call — mid-sequence of the step-3 cell
writes — has issued exactly the first seven calls of its trace and then ends,
because the module-level finally block (app.py 612-613) is `pass`: the trace
contains the successful createSession call but zero closeSession calls, so
close_session is not invoked exactly once on this exit path. -/
theorem c2_counterexample_no_close_on_exception :
    GCall.createSession ∈ ((runScript runStep3Next).2.take 7) ∧
    closeCount ((runScript runStep3Next).2.take 7) = 0 := by
  constructor
  · decide
  · decide

/-- C2 amended: close_session is issued only by the step-5 Start Over handler.
Every initial segment of every run's trace — covering runs truncated by an exception at
any point, including a CellAccessError mid-sequence of writes — contains at
most one closeSession call, and contains none unless the run's event is Start
Over; on all other exit paths the session is left open for reuse. -/
theorem c2_amended_close_only_on_start_over (i : RunInput) (k : Nat) :
    closeCount ((runScript i).2.take k) ≤ 1 ∧
    (¬ i.event = UEvent.s5StartOver → closeCount ((runScript i).2.take k) = 0) := by
  have hfull : closeCount (runScript i).2
      ≤ (if i.event = UEvent.s5StartOver then 1 else 0) := by
    simp only [runScript, closeCount_append, closeCount_create_sessionM,
      closeCount_get_states_and_citiesM, Nat.zero_add]
    exact closeCount_stepBody_le _ i
  have htake := closeCount_take_le (runScript i).2 k
  constructor
  · have h1 : (if i.event = UEvent.s5StartOver then 1 else 0) ≤ 1 := by
      split <;> omega
    omega
  · intro h
    rw [if_neg h] at hfull
    omega

theorem c2_amended_close_only_on_start_over_witness :
    closeCount ((runScript runStep3Next).2.take 7) = 0 :=
  (c2_amended_close_only_on_start_over runStep3Next 7).2 (by decide)

/-! ## Building-step gating (C3) -/

/-- The step-3 fields with number of floors equal to 0, all else valid. -/
def fieldsFloorsZero : Fields := { fieldsOk with floors := some 0 }

/-- Step-3 Next with floors = 0. -/
def runFloorsZero : RunInput := { runStep3Next with fields := fieldsFloorsZero }

/-- C3 counterexample: number of floors is a required numeric field of the
building step and here equals 0 (so is ≤ 0) with every other field valid, yet
pressing Next is accepted: the readiness check validates floors with >= 0, so
it passes, the run issues the eight cell writes, and the controller advances
to step 4 — the claim that any required numeric field ≤ 0 blocks the step
fails for floors. -/
theorem c3_counterexample_floors_zero_advances :
    fieldsFloorsZero.floors = some 0 ∧
    buildingReady fieldsFloorsZero = true ∧
    (runScript runFloorsZero).1.step = 4 ∧
    patchCount (runScript runFloorsZero).2 = 8 := by
  refine ⟨rfl, by decide, by decide, by decide⟩

/-- C3 amended: the building-step fields validated strictly positive are
building area, annual operating hours and CSW area: when any of these is a
number ≤ 0 (building area = 0 in particular), pressing Next on step 3 is
rejected — save_building_inputs fails before any write, the whole run issues
zero cell writes, and the controller stays on step 3. (Number of floors is
validated with >= 0 instead, so floors = 0 alone does not block the step.) -/
theorem c3_amended_positive_fields_gate (i : RunInput) (h3 : i.step = 3)
    (hev : i.event = UEvent.s3Next)
    (hbad : (∃ x, i.fields.bldg_area = some x ∧ x ≤ 0) ∨
            (∃ x, i.fields.hours = some x ∧ x ≤ 0) ∨
            (∃ x, i.fields.csw_sf = some x ∧ x ≤ 0)) :
    buildingReady i.fields = false ∧
    (runScript i).1.step = 3 ∧
    patchCount (runScript i).2 = 0 := by
  have hready : buildingReady i.fields = false := by
    rcases hbad with ⟨x, hx, hx0⟩ | ⟨x, hx, hx0⟩ | ⟨x, hx, hx0⟩ <;>
      · have hp : posNum (some x) = false := by
          simp only [posNum, decide_eq_false_iff_not]
          exact not_lt.mpr hx0
        simp [buildingReady, hx, hp]
  have hsb := stepBody_s3Next_not_ready
    ((get_states_and_citiesM (create_sessionM
      { driveItem := i.hasDriveItem, sessionId := i.hasSessionId,
        listsCached := i.listsCached, pendingCity := i.pendingCity,
        step := i.step }).1).1) i h3 hev hready
  refine ⟨hready, ?_, ?_⟩
  · simp only [runScript, hsb]
    simp [step_get_states_and_citiesM, step_create_sessionM, h3]
  · simp only [runScript, hsb]
    simp [patchCount_append, patchCount_create_sessionM,
      patchCount_get_states_and_citiesM, patchCount]

/-- The step-3 fields with building area equal to 0, all else valid. -/
def fieldsAreaZero : Fields := { fieldsOk with bldg_area := some 0 }

/-- Step-3 Next with building area = 0. -/
def runAreaZero : RunInput := { runStep3Next with fields := fieldsAreaZero }

theorem c3_amended_positive_fields_gate_witness :
    buildingReady fieldsAreaZero = false ∧
    (runScript runAreaZero).1.step = 3 ∧
    patchCount (runScript runAreaZero).2 = 0 :=
  c3_amended_positive_fields_gate runAreaZero rfl rfl
    (Or.inl ⟨0, rfl, le_refl 0⟩)

/-! ## Session-scoped workbook cell protocol (C1) -/

/-- A scalar cell value: text or number. -/
inductive XVal where
  | xStr (s : String)
  | xNum (q : ℚ)
deriving DecidableEq

/-- Modelled from the spec: the remote workbook held by one Graph editing
session — the code under src only issues the HTTP calls, the workbook itself
lives on the server. Per session there is, for each Office-sheet address, the
stored 2-D value grid (if any), and optionally a formula recomputed only by an
explicit calculate call; section 4.4 of the spec requires that within one
session writes followed by one recalculate followed by reads observe all
prior writes. -/
structure Workbook where
  cells : String → Option (List (List XVal))
  formulas : String → Option ((String → Option (List (List XVal))) → XVal)

/-- set_cell (app.py 159-166): PATCH the range at addr with the payload
`{"values": [[value]]}` — the stored grid becomes the 1x1 grid of the value.
Formulas attached to other addresses are untouched. -/
def set_cell (wb : Workbook) (addr : String) (v : XVal) : Workbook :=
  { wb with cells := fun a => if a = addr then some [[v]] else wb.cells a }

/-- get_cell (app.py 168-175): `js["values"][0][0] if js.get("values") else
None` — the top-left scalar of the stored grid when one is present. -/
def get_cell (wb : Workbook) (addr : String) : Option XVal :=
  match wb.cells addr with
  | some ((v :: _) :: _) => some v
  | _ => none

/-- calculate (app.py 177-183) with the spec-modelled server semantics: a full
recalculation recomputes every formula cell from the current grid and leaves
every non-formula cell untouched. -/
def calculate (wb : Workbook) : Workbook :=
  { wb with cells := fun a =>
      match wb.formulas a with
      | some f => some [[f wb.cells]]
      | none => wb.cells a }

/-- C1: within a session, write(X, V) then recalculate() then read(X) returns
V for every non-formula cell X and every scalar V — set_cell, calculate,
get_cell round-trip the written value. -/
theorem c1_read_after_write_after_recalculate (wb : Workbook) (addr : String)
    (v : XVal) (hf : wb.formulas addr = none) :
    get_cell (calculate (set_cell wb addr v)) addr = some v := by
  simp [get_cell, calculate, set_cell, hf]

/-- The empty workbook: no stored values, no formulas. -/
def wbEmpty : Workbook := { cells := fun _ => none, formulas := fun _ => none }

theorem c1_read_after_write_after_recalculate_witness :
    wbEmpty.formulas "C18" = none ∧
    get_cell (calculate (set_cell wbEmpty "C18" (XVal.xStr "Georgia"))) "C18"
      = some (XVal.xStr "Georgia") :=
  ⟨rfl, c1_read_after_write_after_recalculate wbEmpty "C18" (XVal.xStr "Georgia") rfl⟩

/-! ## Token provider (app.py 82-124, C4 and C5) -/

/-- A result dictionary handed back by the msal library; key presence is
modelled as Option (msal result dicts either carry an access_token or error
keys, and a device flow carries a user_code when it started correctly). -/
structure MsalDict where
  access_token : Option String
  user_code : Option String
deriving DecidableEq

/-- The identity-provider environment one acquire_token call runs against:
the accounts found in the deserialized cache, what acquire_token_silent
returns (None or a result dict — None is its documented result when no token
can be obtained silently), and the results of the two device-flow calls. -/
structure MsalEnv where
  accounts : List String
  silentResult : Option MsalDict
  deviceFlow : MsalDict
  deviceResult : MsalDict
deriving DecidableEq

/-- The user-visible effects of one acquire_token call. -/
inductive AuthEvent where
  | cacheSaved
  | interactivePrompt
deriving DecidableEq

/-- How one acquire_token call ends. -/
inductive AuthOutcome where
  | ok (token : String)
  | stopped
  | crashedTypeError
deriving DecidableEq

/-- Lines 114-124 of app.py: initiate the device flow; without a user_code, an
error is shown and the script stops; otherwise the verification prompt is
surfaced and the flow completion either returns the token or stops. -/
def deviceFlowBranch (e : MsalEnv) : AuthOutcome × List AuthEvent :=
  match e.deviceFlow.user_code with
  | none => (AuthOutcome.stopped, [])
  | some _ =>
    match e.deviceResult.access_token with
    | some tok => (AuthOutcome.ok tok, [AuthEvent.interactivePrompt, AuthEvent.cacheSaved])
    | none => (AuthOutcome.stopped, [AuthEvent.interactivePrompt])

/-- acquire_token (app.py 105-124). With a cached account present, line 110
calls acquire_token_silent and line 111 evaluates `"access_token" in res`:
when the silent call returned a dict, key presence decides between returning
the token (after saving the cache) and falling through to the device flow;
when it returned None — a possible msal result — the membership test on None
raises TypeError and the call crashes. -/
def acquire_token (e : MsalEnv) : AuthOutcome × List AuthEvent :=
  match e.accounts with
  | _ :: _ =>
    match e.silentResult with
    | none => (AuthOutcome.crashedTypeError, [])
    | some res =>
      match res.access_token with
      | some tok => (AuthOutcome.ok tok, [AuthEvent.cacheSaved])
      | none => deviceFlowBranch e
  | [] => deviceFlowBranch e

/-- An environment with a cached account whose silent acquisition returns
None (the msal result when the cache cannot satisfy the request silently). -/
def envSilentNone : MsalEnv :=
  { accounts := ["user at contoso"],
    silentResult := none,
    deviceFlow := { access_token := none, user_code := some "ABC123" },
    deviceResult := { access_token := some "tok", user_code := none } }

/-- C4 is a code bug: with a cached account present and the silent acquisition
returning None, acquire_token crashes with a TypeError at the membership test
instead of initiating the device flow — the silent-failure branch is not
handled totally, even though the device flow here would have succeeded. -/
theorem c4_silent_none_crashes_not_device_flow :
    acquire_token envSilentNone = (AuthOutcome.crashedTypeError, []) ∧
    deviceFlowBranch envSilentNone
      = (AuthOutcome.ok "tok", [AuthEvent.interactivePrompt, AuthEvent.cacheSaved]) := by
  constructor
  · rfl
  · rfl

/-- C5: whenever the cache holds an account and the silent acquisition
succeeds (a valid cached account with an unexpired token), acquire_token
returns the token through the silent path with no interactive prompt; calling
it twice in such an environment performs zero interactive prompts on the
second call, which returns its credential silently. -/
theorem c5_second_acquire_is_silent (e1 e2 : MsalEnv) (d1 d2 : MsalDict)
    (t1 t2 : String)
    (ha1 : ¬ e1.accounts = []) (hs1 : e1.silentResult = some d1)
    (ht1 : d1.access_token = some t1)
    (ha2 : ¬ e2.accounts = []) (hs2 : e2.silentResult = some d2)
    (ht2 : d2.access_token = some t2) :
    acquire_token e1 = (AuthOutcome.ok t1, [AuthEvent.cacheSaved]) ∧
    acquire_token e2 = (AuthOutcome.ok t2, [AuthEvent.cacheSaved]) ∧
    ¬ AuthEvent.interactivePrompt ∈ (acquire_token e2).2 := by
  match he1 : e1.accounts with
  | [] => exact absurd he1 ha1
  | _ :: _ =>
    match he2 : e2.accounts with
    | [] => exact absurd he2 ha2
    | _ :: _ =>
      refine ⟨?_, ?_, ?_⟩ <;>
        simp [acquire_token, he1, he2, hs1, hs2, ht1, ht2]

/-- An environment with a cached account and a working silent acquisition. -/
def envSilentOk : MsalEnv :=
  { accounts := ["user at contoso"],
    silentResult := some { access_token := some "tok2", user_code := none },
    deviceFlow := { access_token := none, user_code := some "ABC123" },
    deviceResult := { access_token := none, user_code := none } }

theorem c5_second_acquire_is_silent_witness :
    acquire_token envSilentOk = (AuthOutcome.ok "tok2", [AuthEvent.cacheSaved]) ∧
    acquire_token envSilentOk = (AuthOutcome.ok "tok2", [AuthEvent.cacheSaved]) ∧
    ¬ AuthEvent.interactivePrompt ∈ (acquire_token envSilentOk).2 :=
  c5_second_acquire_is_silent envSilentOk envSilentOk
    { access_token := some "tok2", user_code := none }
    { access_token := some "tok2", user_code := none } "tok2" "tok2"
    (by decide) rfl rfl (by decide) rfl rfl

/-! ## Start Over state reset (app.py 604-610, C8) -/

/-- A value stored in st.session_state. -/
inductive PyVal where
  | pInt (n : Int)
  | pStr (s : String)
  | pObj (tag : String)
deriving DecidableEq

/-- st.session_state as a keyed store. -/
def SState : Type := String → Option PyVal

/-- st.session_state.pop(key, None): remove the key. -/
def popKey (ss : SState) (k : String) : SState :=
  fun q => if q = k then none else ss q

/-- The Start Over deletion loop (app.py 606-609): every key outside
keep = {"msal_cache_serialized", "drive_item"} is deleted. -/
def keepOnly (ss : SState) : SState :=
  fun q => if q = "msal_cache_serialized" ∨ q = "drive_item" then ss q else none

/-- set_step n (app.py 265-266). -/
def set_stepS (ss : SState) (n : Int) : SState :=
  fun q => if q = "step" then some (PyVal.pInt n) else ss q

/-- The Start Over handler (app.py 604-610): close_session pops the workbook
session id, then every key outside keep is deleted, then the step becomes 1. -/
def startOverSState (ss : SState) : SState :=
  set_stepS (keepOnly (popKey ss "excel_session_id")) 1

/-- C8: after Start Over, the serialized msal token cache and the resolved
drive item survive unchanged — so the next step-1 render still finds the
cached credential and the resolved document and needs neither a new
interactive authentication nor a new path resolution (a cached drive item
makes _item_base issue no resolve call) — while every other key (the wizard
fields in particular) is cleared and the step is back to 1. -/
theorem c8_restart_keeps_credential_and_item (ss : SState) (k : String)
    (h1 : ¬ k = "msal_cache_serialized") (h2 : ¬ k = "drive_item")
    (h3 : ¬ k = "step") (s : St) (hd : s.driveItem = true) :
    startOverSState ss "msal_cache_serialized" = ss "msal_cache_serialized" ∧
    startOverSState ss "drive_item" = ss "drive_item" ∧
    startOverSState ss "step" = some (PyVal.pInt 1) ∧
    startOverSState ss k = none ∧
    (itemBase s).2 = [] := by
  refine ⟨?_, ?_, ?_, ?_, ?_⟩
  · simp [startOverSState, set_stepS, keepOnly, popKey]
  · simp [startOverSState, set_stepS, keepOnly, popKey]
  · simp [startOverSState, set_stepS]
  · simp [startOverSState, set_stepS, keepOnly, popKey, h1, h2, h3]
  · simp [itemBase, hd]

/-- A session state holding a credential cache, a resolved item, a session id
and one wizard field. -/
def ssSample : SState := fun q =>
  if q = "msal_cache_serialized" then some (PyVal.pStr "cache-blob")
  else if q = "drive_item" then some (PyVal.pObj "item")
  else if q = "excel_session_id" then some (PyVal.pStr "sid")
  else if q = "bldg_area" then some (PyVal.pInt 1000)
  else none

/-- A cache state with the drive item already resolved. -/
def stAllCached : St :=
  { driveItem := true, sessionId := true, listsCached := true,
    pendingCity := none, step := 1 }

theorem c8_restart_keeps_credential_and_item_witness :
    startOverSState ssSample "msal_cache_serialized" = ssSample "msal_cache_serialized" ∧
    startOverSState ssSample "drive_item" = ssSample "drive_item" ∧
    startOverSState ssSample "step" = some (PyVal.pInt 1) ∧
    startOverSState ssSample "bldg_area" = none ∧
    (itemBase stAllCached).2 = [] :=
  c8_restart_keeps_credential_and_item ssSample "bldg_area"
    (by decide) (by decide) (by decide) stAllCached rfl
